import Mathlib

/-!
Verification of the SocketAsync connection helper (src/SocketAsync.js).

The JavaScript source is shallowly embedded: byte buffers become `List Nat`
(each entry a byte value), JS strings become `String`/`List Char`, fallible
negotiation steps become `Except`, and the event-driven parts become explicit
state passing over event lists.  Every definition mirrors the corresponding
source function; definitions marked as modelled from the spec stand for
behavior that is not part of src (the net module, or the reverse parse a
proxy performs) and say so in their doc comment.
-/

set_option maxRecDepth 8000

/-! ### Errors and the proxy wrapper (src lines 22-27, 302-328) -/

/-- A JavaScript Error value, reduced to the two fields the code reads. -/
structure JsError where
  name : String
  message : String
deriving DecidableEq, Repr

/-- ECMAScript Error.prototype.toString: name, then a colon and the message
when both are nonempty.  Invoked implicitly by the Error constructor when an
Error object is passed as the message argument. -/
def errToString (e : JsError) : String :=
  if e.name = "" then e.message
  else if e.message = "" then e.name
  else e.name ++ ": " ++ e.message

/-- Model of the ProxyError class (src lines 22-27): the constructor calls
super(args) with args the caught Error, so the stored message is the string
conversion of that Error, and the name field is set to ProxyError. -/
def proxyErrorOf (e : JsError) : JsError :=
  { name := "ProxyError", message := errToString e }

/-- Model of connectAsync (src lines 125-130) together with the try/catch of
_connectWithProxyAsync (src lines 302-328): with a proxy configured, any
failure of proxy connect or negotiation is re-thrown as a ProxyError built
from the caught error; without a proxy the outcome of
_connectWithoutProxyAsync is returned as is. -/
def connectAsyncResult (proxyConfigured : Bool) (outcome : Except JsError Unit) :
    Except JsError Unit :=
  if proxyConfigured then
    match outcome with
    | Except.ok u => Except.ok u
    | Except.error e => Except.error (proxyErrorOf e)
  else outcome

/-! ### The terminal-error field of the connection object (src lines 56-88) -/

/-- The stream notifications whose constructor-installed handlers touch the
error field: timeout, error, end and close (src lines 62-88). -/
inductive SockEvent where
  | timeoutEv : SockEvent
  | errorEv : JsError → SockEvent
  | finEv : SockEvent
  | closeEv : SockEvent
deriving DecidableEq, Repr

/-- The error each handler would record when the field is still null. -/
def eventError : SockEvent → JsError
  | SockEvent.timeoutEv => ⟨"Error", "ESOCKETTIMEOUT"⟩
  | SockEvent.errorEv e => e
  | SockEvent.finEv => ⟨"Error", "EENDFIN"⟩
  | SockEvent.closeEv => ⟨"Error", "ESOCKETCLOSED"⟩

/-- One constructor-installed handler firing: each handler sets this.error
only when it is still null (the if (!this.error) guard in src lines 62-88). -/
def applyEvent (err : Option JsError) (ev : SockEvent) : Option JsError :=
  match err with
  | some e => some e
  | none => some (eventError ev)

/-- The error field after a sequence of notifications. -/
def runEvents (err : Option JsError) (evs : List SockEvent) : Option JsError :=
  evs.foldl applyEvent err

/-! ### The receive buffer and spliceChunks (src lines 232-236) -/

/-- Model of spliceChunks(start, end) (src lines 232-236): subarray(start, end)
is returned and the buffer is replaced by the concatenation of
subarray(0, start) and subarray(end).  The first component is the returned
slice, the second the new buffer contents. -/
def spliceChunks (start stop : Nat) (chunks : List Nat) : List Nat × List Nat :=
  ((chunks.take stop).drop start, chunks.take start ++ chunks.drop stop)

/-! ### readAsync and readAndClearAsync (src lines 138-224) -/

/-- The resolution test of the onData handler (src line 146): no callback, or
the callback returns true on the whole current buffer. -/
def readSatisfied (cb : Option (List Nat → Bool)) (buf : List Nat) : Bool :=
  match cb with
  | none => true
  | some f => f buf

/-- The repeated onData handler of readAsync: each data notification appends
to the buffer and then tests the whole buffer; the first satisfying state
resolves the promise with the full buffer contents. -/
def runReadLoop (cb : Option (List Nat → Bool)) (buf : List Nat) :
    List (List Nat) → Option (List Nat)
  | [] => none
  | d :: rest =>
    let buf2 := buf ++ d
    if readSatisfied cb buf2 then some buf2 else runReadLoop cb buf2 rest

/-- Model of readAsync (src lines 138-212) restricted to data notifications:
if the buffer is already nonempty the test runs immediately (src lines
208-210), then each inbound chunk is appended and tested.  The result is the
buffer contents at the moment of resolution, or none when the given
notifications never satisfy the test. -/
def runReadAsync (cb : Option (List Nat → Bool)) (buf : List Nat)
    (events : List (List Nat)) : Option (List Nat) :=
  if !buf.isEmpty && readSatisfied cb buf then some buf
  else runReadLoop cb buf events

/-- Model of readAndClearAsync (src lines 220-224): await readAsync, then
synchronously spliceChunks(0) with the default end, which at that moment is
the whole buffer length.  Returns the resolved chunks and the buffer
contents left after the splice. -/
def readAndClearModel (cb : Option (List Nat → Bool)) (buf : List Nat)
    (events : List (List Nat)) : Option (List Nat × List Nat) :=
  match runReadAsync cb buf events with
  | none => none
  | some b => some (b, (spliceChunks 0 b.length b).2)

/-! ### UTF-8 and UTF-16 views of JS strings -/

/-- UTF-8 encoding of one code point, as Buffer.from(string) performs it. -/
def utf8EncodeChar (c : Char) : List Nat :=
  let n := c.toNat
  if n < 128 then [n]
  else if n < 2048 then [192 + n / 64, 128 + n % 64]
  else if n < 65536 then [224 + n / 4096, 128 + (n / 64) % 64, 128 + n % 64]
  else [240 + n / 262144, 128 + (n / 4096) % 64, 128 + (n / 64) % 64, 128 + n % 64]

/-- UTF-8 bytes of a character list, as Buffer.from(host) or
Buffer.from(username) produce them. -/
def utf8Bytes (l : List Char) : List Nat :=
  (l.map utf8EncodeChar).flatten

/-- Number of UTF-16 code units a code point occupies in a JS string. -/
def utf16Units (c : Char) : Nat :=
  if c.toNat < 65536 then 1 else 2

/-- The JS string length property: the number of UTF-16 code units. -/
def utf16Len (l : List Char) : Nat :=
  (l.map utf16Units).sum

/-! ### SOCKS5 auth message (src lines 391-399) -/

/-- Model of the auth message of _connectSocks5Proxy (src lines 392-397):
the username length prefix is Buffer.from(username).length, the byte length
of its UTF-8 encoding, while the password length prefix is password.length,
the UTF-16 code-unit length of the JS string.  Buffer.from truncates array
entries to a byte. -/
def socks5AuthMessage (username password : String) : List Nat :=
  [1, (utf8Bytes username.data).length % 256] ++ utf8Bytes username.data
    ++ [utf16Len password.data % 256] ++ utf8Bytes password.data

/-- The auth message as the spec words it: both length prefixes are the
1-byte byte-length of the corresponding encoded string.  Kept alongside
socks5AuthMessage to compare the code against the spec sentence. -/
def specAuthMessage (username password : String) : List Nat :=
  [1, (utf8Bytes username.data).length] ++ utf8Bytes username.data
    ++ [(utf8Bytes password.data).length] ++ utf8Bytes password.data

/-! ### Hex helpers shared by the greeting and the target request -/

/-- Value of one hex digit, as Buffer.from(str, hex) reads it; both cases
accepted, other characters irrelevant for the inputs the code produces. -/
def hexVal (c : Char) : Nat :=
  if 48 ≤ c.toNat ∧ c.toNat ≤ 57 then c.toNat - 48
  else if 97 ≤ c.toNat ∧ c.toNat ≤ 102 then c.toNat - 87
  else if 65 ≤ c.toNat ∧ c.toNat ≤ 70 then c.toNat - 55
  else 0

/-- Buffer.from(str, hex): consecutive pairs of hex digits become bytes; a
trailing lone digit is ignored. -/
def hexPairsToBytes : List Char → List Nat
  | c1 :: c2 :: rest => (16 * hexVal c1 + hexVal c2) :: hexPairsToBytes rest
  | _ => []

/-- The greeting written by _connectSocks5Proxy (src line 377):
Buffer.from(05020002, hex). -/
def socks5GreetingBytes : List Nat :=
  hexPairsToBytes "05020002".data

/-! ### SOCKS5 method-selection reply check (src lines 378-388) -/

/-- Model of the greeting reply check (src lines 379-388): exactly 2 bytes,
byte 0 must be 5, byte 1 must be one of the two offered methods; on success
the chosen method is returned. -/
def socks5MethodCheck (chunks : List Nat) : Except String Nat :=
  if chunks.length ≠ 2 then
    Except.error "Unexpected number of bytes received."
  else if chunks.getD 0 0 ≠ 5 then
    Except.error ("Unexpected socks version number: " ++ Nat.repr (chunks.getD 0 0) ++ ".")
  else
    let authType := chunks.getD 1 0
    if authType ≠ 0 ∧ authType ≠ 2 then
      Except.error ("Unexpected socks authentication method: " ++ Nat.repr authType)
    else Except.ok authType

/-! ### SOCKS5 connect-reply check (src lines 10-19, 462-471) -/

/-- The ERROR_MAP object (src lines 10-19): reply codes 1 to 8 map to fixed
messages, any other key reads as undefined. -/
def errorMap (code : Nat) : Option String :=
  if code = 1 then some "代理服务器故障"
  else if code = 2 then some "代理服务器规则集不允许连接"
  else if code = 3 then some "网络无法访问"
  else if code = 4 then some "目标服务器无法访问（主机名无效）"
  else if code = 5 then some "连接目标服务器被拒绝"
  else if code = 6 then some "TTL已过期"
  else if code = 7 then some "不支持的命令"
  else if code = 8 then some "不支持的目标服务器地址类型"
  else none

/-- How a possibly missing byte prints inside a template literal: reading an
out-of-range Buffer index yields undefined. -/
def jsUndefOr (b : Option Nat) : String :=
  match b with
  | none => "undefined"
  | some n => Nat.repr n

/-- Model of the connect-request reply check (src lines 462-471): byte 0 must
be 5, byte 1 equal to 0 means success, a byte found in ERROR_MAP throws that
message, anything else throws the generic unknown-failure message naming the
host.  Out-of-range reads yield none, mirroring undefined. -/
def socks5ReplyCheck (chunks : List Nat) (host : String) : Except String Unit :=
  if chunks.get? 0 ≠ some 5 then
    Except.error ("Unexpected SOCKS version number: " ++ jsUndefOr (chunks.get? 0) ++ ".")
  else if chunks.get? 1 = some 0 then Except.ok ()
  else
    match (chunks.get? 1).bind errorMap with
    | some m => Except.error m
    | none => Except.error ("未知错误，连接目标地址失败：" ++ host)

/-! ### HTTP CONNECT response check (src lines 346-353) -/

/-- The characters String.prototype.trim removes: ECMAScript WhiteSpace and
LineTerminator code points. -/
def isJsSpace (c : Char) : Bool :=
  let n := c.toNat
  (9 ≤ n && n ≤ 13) || n == 32 || n == 160 || n == 5760 ||
    (8192 ≤ n && n ≤ 8202) || n == 8232 || n == 8233 || n == 8239 ||
    n == 8287 || n == 12288 || n == 65279

/-- String.prototype.trim on a character list. -/
def jsTrim (l : List Char) : List Char :=
  ((l.dropWhile isJsSpace).reverse.dropWhile isJsSpace).reverse

/-- ASCII lowercasing, the case folding the /i regex flag performs on the
letters of the pattern. -/
def lowerAscii (c : Char) : Char :=
  if 65 ≤ c.toNat ∧ c.toNat ≤ 90 then Char.ofNat (c.toNat + 32) else c

/-- The test str.match of the anchored pattern HTTP/1.[01] 200 with the /i
flag (src line 349): the first 12 characters, folded to lower case, must be
one of the two accepted status-line starts. -/
def httpOkStart (l : List Char) : Bool :=
  ((l.take 12).map lowerAscii == "http/1.0 200".data) ||
    ((l.take 12).map lowerAscii == "http/1.1 200".data)

/-- Model of the response check of _connectHttpProxy (src lines 348-352):
trim the response text, accept when the anchored case-insensitive pattern
matches, otherwise throw with the trimmed text appended to the fixed
message. -/
def httpConnectCheck (resp : List Char) : Except (List Char) Unit :=
  let str := jsTrim resp
  if httpOkStart str then Except.ok ()
  else Except.error ("连接目标失败：".data ++ str)

/-! ### JS string split and join -/

/-- JS String.prototype.split with a single-character separator: splits at
every occurrence, preserving empty pieces; an empty string splits into one
empty piece. -/
def splitOn (sep : Char) : List Char → List (List Char)
  | [] => [[]]
  | c :: rest =>
    if c = sep then [] :: splitOn sep rest
    else
      match splitOn sep rest with
      | [] => [[c]]
      | p :: ps => (c :: p) :: ps

/-- Joining pieces with a single-character separator, the inverse direction
of splitOn. -/
def joinWith (sep : Char) : List (List Char) → List Char
  | [] => []
  | [p] => p
  | p :: ps => p ++ sep :: joinWith sep ps

/-! ### Decimal and hex digit helpers -/

/-- Decimal digit test. -/
def isDecDigit (c : Char) : Bool :=
  48 ≤ c.toNat && c.toNat ≤ 57

/-- Value of a decimal digit character. -/
def decDigitVal (c : Char) : Nat := c.toNat - 48

/-- Numeric value of a decimal digit string, as Number coerces the pieces of
a dotted quad. -/
def decVal (l : List Char) : Nat :=
  l.foldl (fun acc c => 10 * acc + decDigitVal c) 0

/-- The decimal character representation of a number. -/
def decRepr (n : Nat) : List Char := (Nat.repr n).data

/-- A canonical IPv4 octet: nonempty, all decimal digits, no leading zero,
value at most 255.  This is what the strict address parser behind net.isIP
accepts for each dotted-quad piece. -/
def isCanonOctet (l : List Char) : Bool :=
  !l.isEmpty && l.all isDecDigit && (l.length == 1 || l.headD ' ' != '0')
    && decVal l ≤ 255

/-- Hex digit test, both cases. -/
def isHexDigit (c : Char) : Bool :=
  (48 ≤ c.toNat && c.toNat ≤ 57) || (97 ≤ c.toNat && c.toNat ≤ 102)
    || (65 ≤ c.toNat && c.toNat ≤ 70)

/-- Lowercase hex digit character for a value below 16. -/
def hexDig (n : Nat) : Char := Nat.digitChar n

/-! ### Host classification (net.isIP) -/

/-- A canonical dotted quad: four canonical octets separated by dots. -/
def isIPv4Chars (h : List Char) : Bool :=
  let parts := splitOn '.' h
  parts.length == 4 && parts.all isCanonOctet

/-- A full 8-group IPv6 form: eight colon-separated groups of one to four
hex digits. -/
def isIPv6FullChars (h : List Char) : Bool :=
  let parts := splitOn ':' h
  parts.length == 8 &&
    parts.all (fun g => !g.isEmpty && g.length ≤ 4 && g.all isHexDigit)

/-- Modelled from the spec: the net.isIP classification used at src line 414.
The net module is an external collaborator, not part of src.  Returns 4 for
a canonical dotted quad, 6 for a full 8-group IPv6 form, 0 otherwise.
Compressed IPv6 forms, which net.isIP also classifies as 6, are outside
every claim here and the encoder cannot handle them. -/
def classifyHost (h : List Char) : Nat :=
  if isIPv4Chars h then 4 else if isIPv6FullChars h then 6 else 0

/-! ### Port encoding (src lines 416-421) -/

/-- Minimal hex digits of a number, via an explicit fuel argument so that the
definition is structurally recursive; minHex supplies enough fuel. -/
def minHexAux : Nat → Nat → List Char
  | 0, _ => []
  | fuel + 1, n =>
    if n < 16 then [hexDig n]
    else minHexAux fuel (n / 16) ++ [hexDig (n % 16)]

/-- Number.prototype.toString(16): minimal lowercase hex digits. -/
def minHex (n : Nat) : List Char := minHexAux (n + 1) n

/-- The zero padding of src lines 417-419 and 450: prepend zeros up to the
target width; no padding when already at least that wide. -/
def padLeftZeros (width : Nat) (l : List Char) : List Char :=
  List.replicate (width - l.length) '0' ++ l

/-- The two port bytes (src lines 416-421): hex of the port, padded to four
digits, then read back as bytes. -/
def portBytes (port : Nat) : List Nat :=
  hexPairsToBytes (padLeftZeros 4 (minHex port))

/-- One IPv6 group mapped to its two bytes (src lines 447-453): the group is
zero-padded to four hex digits and read as bytes. -/
def ipv6GroupBytes (g : List Char) : List Nat :=
  hexPairsToBytes (padLeftZeros 4 g)

/-! ### The target request (src lines 412-460) -/

/-- Model of the target request built by _connectSocks5Proxy (src lines
412-459): the fixed prefix Buffer.from(050100, hex); then per address class
the address-type byte and address bytes; then the two port bytes.  A dotted
quad contributes one byte per octet through Number coercion and byte
truncation, a domain contributes a byte-length prefix (truncated to a byte)
and its UTF-8 bytes, a full IPv6 form contributes two bytes per group.
Returns none for the final else branch, which throws. -/
def socks5TargetMessage (host : List Char) (port : Nat) : Option (List Nat) :=
  let targetType := classifyHost host
  let bufPort := portBytes port
  if targetType = 4 then
    some (hexPairsToBytes "050100".data ++ [1]
      ++ (splitOn '.' host).map (fun p => decVal p % 256) ++ bufPort)
  else if targetType = 0 then
    some (hexPairsToBytes "050100".data ++ [3, (utf8Bytes host).length % 256]
      ++ utf8Bytes host ++ bufPort)
  else if targetType = 6 then
    some (hexPairsToBytes "050100".data ++ [4]
      ++ ((splitOn ':' host).map ipv6GroupBytes).flatten ++ bufPort)
  else none

/-! ### The reverse parse, as the proxy would perform it -/

/-- UTF-8 continuation byte test. -/
def utf8Cont (b : Nat) : Bool := 128 ≤ b && b < 192

/-- Modelled from the spec: one step of UTF-8 decoding, reading the leading
code point and returning it with the remaining bytes; part of the reverse
parse a conforming proxy performs, which is not code of src. -/
def utf8DecodeStep : List Nat → Option (Char × List Nat)
  | [] => none
  | b1 :: rest =>
    if b1 < 128 then some (Char.ofNat b1, rest)
    else if b1 < 192 then none
    else if b1 < 224 then
      match rest with
      | b2 :: rest2 =>
        if utf8Cont b2 then
          some (Char.ofNat ((b1 - 192) * 64 + (b2 - 128)), rest2)
        else none
      | [] => none
    else if b1 < 240 then
      match rest with
      | b2 :: b3 :: rest3 =>
        if utf8Cont b2 && utf8Cont b3 then
          some (Char.ofNat ((b1 - 224) * 4096 + (b2 - 128) * 64 + (b3 - 128)), rest3)
        else none
      | _ => none
    else if b1 < 248 then
      match rest with
      | b2 :: b3 :: b4 :: rest4 =>
        if utf8Cont b2 && utf8Cont b3 && utf8Cont b4 then
          some (Char.ofNat ((b1 - 240) * 262144 + (b2 - 128) * 4096
            + (b3 - 128) * 64 + (b4 - 128)), rest4)
        else none
      | _ => none
    else none

/-- Iterated UTF-8 decoding with explicit fuel; each step consumes at least
one byte, so the byte count is enough fuel. -/
def utf8DecodeAux : Nat → List Nat → Option (List Char)
  | _, [] => some []
  | 0, _ :: _ => none
  | fuel + 1, b :: bs =>
    match utf8DecodeStep (b :: bs) with
    | some (c, rest) => (utf8DecodeAux fuel rest).map (fun cs => c :: cs)
    | none => none

/-- Modelled from the spec: full UTF-8 decoding, the reverse of Buffer.from
on a string. -/
def utf8Decode (bs : List Nat) : Option (List Char) :=
  utf8DecodeAux bs.length bs

/-- The canonical zero-padded lowercase hex rendering of two address bytes,
one IPv6 group. -/
def bytesToHexQuad (b1 b2 : Nat) : List Char :=
  [hexDig (b1 / 16), hexDig (b1 % 16), hexDig (b2 / 16), hexDig (b2 % 16)]

/-- Sixteen address bytes rendered as eight 4-digit groups. -/
def parseGroups : List Nat → List (List Char)
  | b1 :: b2 :: rest => bytesToHexQuad b1 b2 :: parseGroups rest
  | _ => []

/-- Modelled from the spec: the reverse parse of the SOCKS5 target request,
as the proxy would perform it (spec section 8); not code of src.  Checks the
fixed 05 01 00 prefix, dispatches on the address-type byte, and recovers the
host text and the big-endian port. -/
def socks5ParseTarget (msg : List Nat) : Option (List Char × Nat) :=
  match msg with
  | 5 :: 1 :: 0 :: 1 :: o1 :: o2 :: o3 :: o4 :: p1 :: p2 :: [] =>
    some (joinWith '.' [decRepr o1, decRepr o2, decRepr o3, decRepr o4],
      256 * p1 + p2)
  | 5 :: 1 :: 0 :: 3 :: len :: rest =>
    let dom := rest.take len
    (match rest.drop len with
     | p1 :: p2 :: [] =>
       if dom.length = len then
         match utf8Decode dom with
         | some chars => some (chars, 256 * p1 + p2)
         | none => none
       else none
     | _ => none)
  | 5 :: 1 :: 0 :: 4 :: rest =>
    let addr := rest.take 16
    (match rest.drop 16 with
     | p1 :: p2 :: [] =>
       if addr.length = 16 then
         some (joinWith ':' (parseGroups addr), 256 * p1 + p2)
       else none
     | _ => none)
  | _ => none

/-! ### Canonical hosts for the round-trip statements -/

/-- The canonical dotted quad with the given octet values. -/
def ipv4Host (o1 o2 o3 o4 : Nat) : List Char :=
  joinWith '.' [decRepr o1, decRepr o2, decRepr o3, decRepr o4]

/-- The canonical 4-digit lowercase hex rendering of a group value. -/
def hex4 (g : Nat) : List Char :=
  [hexDig (g / 4096), hexDig (g / 256 % 16), hexDig (g / 16 % 16), hexDig (g % 16)]

/-- The full 8-group IPv6 host whose groups are each written as exactly four
lowercase hex digits. -/
def ipv6Host (g1 g2 g3 g4 g5 g6 g7 g8 : Nat) : List Char :=
  joinWith ':' [hex4 g1, hex4 g2, hex4 g3, hex4 g4, hex4 g5, hex4 g6, hex4 g7, hex4 g8]

/-! ## Claim C1: the auth message and its password length prefix -/

/-- Claim C1: evaluating the auth message at username a and password é shows
the divergence: the code writes the JS string length of the password (1) as
the length prefix although the two UTF-8 bytes of the password follow, while
the spec rendering of the message carries the byte length (2).  The username
prefix is a byte length in both. -/
theorem socks5_auth_password_length_bug :
    socks5AuthMessage "a" "é" = [1, 1, 97, 1, 195, 169] ∧
    (utf8Bytes ("é".data)).length = 2 ∧
    specAuthMessage "a" "é" = [1, 1, 97, 2, 195, 169] ∧
    socks5AuthMessage "a" "é" ≠ specAuthMessage "a" "é" := by
  decide

/-! ## Claim C2: proxy-error wrapping -/

/-- Claim C2, counterexample to the claim as stated: for the underlying error
with message boom, the ProxyError thrown by _connectWithProxyAsync carries
the message Error: boom, the string conversion of the caught Error, which is
not equal to boom. -/
theorem connectAsync_proxy_message_cex :
    connectAsyncResult true (Except.error ⟨"Error", "boom"⟩)
      = Except.error ⟨"ProxyError", "Error: boom"⟩ ∧
    ("Error: boom" : String) ≠ "boom" :=
  ⟨rfl, by decide⟩

/-- Claim C2 as amended: with a proxy configured, every error is re-thrown as
the ProxyError kind whose message is the string conversion of the original
error (its name, a colon and its message when both are nonempty), which
contains the original message; without a proxy every outcome passes through
unwrapped. -/
theorem connectAsync_proxy_wrapping :
    (∀ e : JsError,
      connectAsyncResult true (Except.error e) = Except.error (proxyErrorOf e) ∧
      (proxyErrorOf e).name = "ProxyError" ∧
      ∃ l r : List Char, (proxyErrorOf e).message.data = l ++ e.message.data ++ r) ∧
    (∀ outcome : Except JsError Unit, connectAsyncResult false outcome = outcome) := by
  constructor
  · intro e
    refine ⟨rfl, rfl, ?_⟩
    by_cases h1 : e.name = ""
    · exact ⟨[], [], by simp [proxyErrorOf, errToString, h1]⟩
    · by_cases h2 : e.message = ""
      · refine ⟨e.name.data, [], ?_⟩
        simp [proxyErrorOf, errToString, h1, h2]
      · refine ⟨e.name.data ++ (": ").data, [], ?_⟩
        simp [proxyErrorOf, errToString, h1, h2, String.data_append]
  · intro outcome
    rfl

/-! ## Claim C9: the terminal error field is write-once -/

/-- Claim C9: each constructor-installed handler only writes the error field
when it is still null, so a field already set survives any further
notifications unchanged, and starting from null the recorded error is always
the one belonging to the first notification observed. -/
theorem socket_error_write_once :
    (∀ (e : JsError) (evs : List SockEvent), runEvents (some e) evs = some e) ∧
    (∀ (ev : SockEvent) (evs : List SockEvent),
      runEvents none (ev :: evs) = some (eventError ev)) ∧
    (∀ evs : List SockEvent, runEvents none evs = evs.head?.map eventError) := by
  have hsome : ∀ (evs : List SockEvent) (e : JsError), runEvents (some e) evs = some e := by
    intro evs
    induction evs with
    | nil => intro e; rfl
    | cons ev rest ih =>
      intro e
      simpa [runEvents, applyEvent] using ih e
  refine ⟨fun e evs => hsome evs e, fun ev evs => ?_, fun evs => ?_⟩
  · simpa [runEvents, applyEvent] using hsome evs (eventError ev)
  · cases evs with
    | nil => rfl
    | cons ev rest =>
      simpa [runEvents, applyEvent, List.head?] using hsome rest (eventError ev)

/-! ## Claim C7: spliceChunks returns the range and preserves the rest -/

/-- Claim C7: for in-range start and end, spliceChunks returns exactly the
half-open byte range from start to end, leaves the buffer equal to the part
before start followed by the part from end on, and re-concatenating the
three pieces reconstructs the original buffer. -/
theorem spliceChunks_roundtrip (X : List Nat) (s e : Nat) (hse : s ≤ e)
    (he : e ≤ X.length) :
    (spliceChunks s e X).1 = (X.drop s).take (e - s) ∧
    (spliceChunks s e X).2 = X.take s ++ X.drop e ∧
    X.take s ++ (spliceChunks s e X).1 ++ X.drop e = X := by
  refine ⟨List.drop_take .., rfl, ?_⟩
  show X.take s ++ (X.take e).drop s ++ X.drop e = X
  have h1 : (X.take e).take s = X.take s := by
    rw [List.take_take]
    congr 1
    omega
  calc X.take s ++ (X.take e).drop s ++ X.drop e
      = (X.take e).take s ++ (X.take e).drop s ++ X.drop e := by rw [h1]
    _ = X.take e ++ X.drop e := by rw [List.take_append_drop]
    _ = X := List.take_append_drop e X

/-- Claim C7, witness: the general theorem applied to the buffer 1 2 3 4 5
with the range from 1 to 3. -/
theorem spliceChunks_roundtrip_witness :
    (spliceChunks 1 3 [1, 2, 3, 4, 5]).1 = ([1, 2, 3, 4, 5].drop 1).take 2 ∧
    (spliceChunks 1 3 [1, 2, 3, 4, 5]).2 = [1, 2, 3, 4, 5].take 1 ++ [1, 2, 3, 4, 5].drop 3 ∧
    [1, 2, 3, 4, 5].take 1 ++ (spliceChunks 1 3 [1, 2, 3, 4, 5]).1 ++ [1, 2, 3, 4, 5].drop 3
      = [1, 2, 3, 4, 5] :=
  spliceChunks_roundtrip [1, 2, 3, 4, 5] 1 3 (by decide) (by decide)

/-! ## Claim C10: a short connect-request reply is rejected -/

/-- Claim C10: a connect-request reply shorter than 2 bytes never passes the
reply check: the missing byte reads as undefined, the version or the success
test fails, and the check returns an error rather than succeeding or
faulting. -/
theorem socks5_reply_short_rejects (chunks : List Nat) (host : String)
    (h : chunks.length < 2) :
    ∃ m, socks5ReplyCheck chunks host = Except.error m := by
  match chunks, h with
  | [], _ => exact ⟨_, rfl⟩
  | [b], _ =>
    by_cases hb : b = 5
    · subst hb
      exact ⟨_, rfl⟩
    · exact ⟨"Unexpected SOCKS version number: " ++ jsUndefOr (some b) ++ ".",
        by simp [socks5ReplyCheck, hb]⟩

/-- Claim C10, witness: the empty reply is rejected. -/
theorem socks5_reply_short_rejects_witness :
    ∃ m, socks5ReplyCheck [] "example.com" = Except.error m :=
  socks5_reply_short_rejects [] "example.com" (by decide)

/-! ## Claim C5: the greeting and the method-selection reply check -/

/-- Claim C5: the greeting written is exactly 05 02 00 02, and the method
check accepts a reply exactly when it is two bytes, byte 0 is 5 and byte 1
is 0 or 2; otherwise it fails with the byte-count, version or
authentication-method error respectively. -/
theorem socks5_greeting_and_method_check :
    socks5GreetingBytes = [5, 2, 0, 2] ∧
    ∀ reply : List Nat,
      ((∃ t, socks5MethodCheck reply = Except.ok t) ↔
        ∃ m, reply = [5, m] ∧ (m = 0 ∨ m = 2)) ∧
      (reply.length ≠ 2 →
        socks5MethodCheck reply = Except.error "Unexpected number of bytes received.") ∧
      (∀ b0 b1, reply = [b0, b1] → b0 ≠ 5 →
        socks5MethodCheck reply
          = Except.error ("Unexpected socks version number: " ++ Nat.repr b0 ++ ".")) ∧
      (∀ m, reply = [5, m] → m ≠ 0 → m ≠ 2 →
        socks5MethodCheck reply
          = Except.error ("Unexpected socks authentication method: " ++ Nat.repr m)) := by
  refine ⟨by decide, fun reply => ⟨?_, ?_, ?_, ?_⟩⟩
  · constructor
    · intro ⟨t, ht⟩
      rcases reply with _ | ⟨b0, _ | ⟨b1, _ | ⟨b2, rest⟩⟩⟩
      · simp [socks5MethodCheck] at ht
      · simp [socks5MethodCheck] at ht
      · by_cases h0 : b0 = 5
        · subst h0
          by_cases h1 : b1 ≠ 0 ∧ b1 ≠ 2
          · simp [socks5MethodCheck, h1] at ht
          · exact ⟨b1, rfl, by omega⟩
        · simp [socks5MethodCheck, h0] at ht
      · simp [socks5MethodCheck] at ht
    · rintro ⟨m, rfl, hm⟩
      refine ⟨m, ?_⟩
      have h1 : ¬(m ≠ 0 ∧ m ≠ 2) := by omega
      simp [socks5MethodCheck, h1]
  · intro hl
    unfold socks5MethodCheck
    rw [if_pos hl]
  · rintro b0 b1 rfl h0
    simp [socks5MethodCheck, h0]
  · rintro m rfl h0 h2
    have h1 : m ≠ 0 ∧ m ≠ 2 := ⟨h0, h2⟩
    simp [socks5MethodCheck, h1]

/-- Claim C5, witness: the general theorem applied to the reply 5 0
establishes acceptance, and to the reply 5 1 the authentication-method
failure. -/
theorem socks5_greeting_and_method_check_witness :
    (∃ t, socks5MethodCheck [5, 0] = Except.ok t) ∧
    socks5MethodCheck [5, 1]
      = Except.error ("Unexpected socks authentication method: " ++ Nat.repr 1) :=
  ⟨((socks5_greeting_and_method_check.2 [5, 0]).1).mpr ⟨0, rfl, Or.inl rfl⟩,
    (socks5_greeting_and_method_check.2 [5, 1]).2.2.2 1 rfl
      (by decide) (by decide)⟩

/-! ## Claim C3: the connect-reply error table -/

/-- Claim C3: when the connect-request reply carries version 5 and a nonzero
code, a code in the table (exactly the codes 1 to 8) fails with the table
message — for code 2 the message names the disallowing ruleset — and any
nonzero code outside the table fails with the generic unknown-failure
message naming the host. -/
theorem socks5_reply_error_table (c : Nat) (rest : List Nat) (host : String)
    (hc : c ≠ 0) :
    (∀ m, errorMap c = some m →
      socks5ReplyCheck (5 :: c :: rest) host = Except.error m) ∧
    (1 ≤ c ∧ c ≤ 8 → ∃ m, errorMap c = some m) ∧
    (errorMap 2 = some "代理服务器规则集不允许连接" ∧
      ∃ l r, ("代理服务器规则集不允许连接").data = l ++ ("规则集").data ++ r) ∧
    (¬(1 ≤ c ∧ c ≤ 8) →
      socks5ReplyCheck (5 :: c :: rest) host
        = Except.error ("未知错误，连接目标地址失败：" ++ host)) := by
  refine ⟨?_, ?_, ⟨by decide, "代理服务器".data, "不允许连接".data, by decide⟩, ?_⟩
  · intro m hm
    simp [socks5ReplyCheck, hc, hm]
  · rintro ⟨h1, h8⟩
    interval_cases c <;> exact ⟨_, rfl⟩
  · intro hn
    have hm : errorMap c = none := by
      unfold errorMap
      repeat rw [if_neg (by omega)]
    simp [socks5ReplyCheck, hc, hm]

/-- Claim C3, witness: the general theorem applied to the reply 05 02 yields
the ruleset message, and to the reply 05 09 the generic failure message. -/
theorem socks5_reply_error_table_witness :
    socks5ReplyCheck [5, 2] "example.com" = Except.error "代理服务器规则集不允许连接" ∧
    socks5ReplyCheck [5, 9] "example.com"
      = Except.error ("未知错误，连接目标地址失败：" ++ "example.com") :=
  ⟨(socks5_reply_error_table 2 [] "example.com" (by decide)).1 _ rfl,
    (socks5_reply_error_table 9 [] "example.com" (by decide)).2.2.2 (by omega)⟩

/-! ## Claim C6: the HTTP CONNECT status check -/

/-- A list equals a take of another exactly when it is an initial segment. -/
theorem take_eq_iff_append {α : Type} (m pat : List α) :
    m.take pat.length = pat ↔ ∃ rest, m = pat ++ rest := by
  constructor
  · intro h
    refine ⟨m.drop pat.length, ?_⟩
    have h2 := List.take_append_drop pat.length m
    rw [h] at h2
    exact h2.symm
  · rintro ⟨rest, rfl⟩
    exact List.take_left pat rest

/-- The pattern test matches exactly the two accepted prefixes after ASCII
case folding. -/
theorem httpOkStart_iff (l : List Char) :
    httpOkStart l = true ↔
      (∃ rest, l.map lowerAscii = "http/1.0 200".data ++ rest) ∨
      (∃ rest, l.map lowerAscii = "http/1.1 200".data ++ rest) := by
  have h0 : ("http/1.0 200".data).length = 12 := by decide
  have h1 : ("http/1.1 200".data).length = 12 := by decide
  unfold httpOkStart
  rw [Bool.or_eq_true, beq_iff_eq, beq_iff_eq, List.map_take]
  constructor
  · rintro (h | h)
    · exact Or.inl ((take_eq_iff_append _ _).mp (by rw [h0]; exact h))
    · exact Or.inr ((take_eq_iff_append _ _).mp (by rw [h1]; exact h))
  · rintro (h | h)
    · exact Or.inl (by rw [← h0]; exact (take_eq_iff_append _ _).mpr h)
    · exact Or.inr (by rw [← h1]; exact (take_eq_iff_append _ _).mpr h)

/-- Claim C6: the CONNECT negotiation accepts a response exactly when the
trimmed text starts, after ASCII case folding, with HTTP/1.0 200 or
HTTP/1.1 200, and every rejection carries the fixed failure text followed by
the trimmed response, so the error message includes the trimmed response
text. -/
theorem http_connect_check_iff (resp : List Char) :
    ((∃ u, httpConnectCheck resp = Except.ok u) ↔
      (∃ rest, (jsTrim resp).map lowerAscii = "http/1.0 200".data ++ rest) ∨
      (∃ rest, (jsTrim resp).map lowerAscii = "http/1.1 200".data ++ rest)) ∧
    (∀ m, httpConnectCheck resp = Except.error m →
      m = "连接目标失败：".data ++ jsTrim resp ∧ ∃ l, m = l ++ jsTrim resp) := by
  by_cases hok : httpOkStart (jsTrim resp) = true
  · constructor
    · rw [← httpOkStart_iff]
      simp [httpConnectCheck, hok]
    · intro m hm
      simp [httpConnectCheck, hok] at hm
  · constructor
    · rw [← httpOkStart_iff]
      simp [httpConnectCheck, hok]
    · intro m hm
      simp [httpConnectCheck, hok] at hm
      exact ⟨hm.symm, "连接目标失败：".data, hm.symm⟩

/-- Claim C6, witness: the general theorem applied to a 407 response shows
the rejection message carries the trimmed response text. -/
theorem http_connect_check_iff_witness :
    ∃ l, ("连接目标失败：".data
        ++ jsTrim ("HTTP/1.1 407 Proxy Authentication Required\r\n\r\n".data))
      = l ++ jsTrim ("HTTP/1.1 407 Proxy Authentication Required\r\n\r\n".data) :=
  ((http_connect_check_iff
      ("HTTP/1.1 407 Proxy Authentication Required\r\n\r\n".data)).2
    ("连接目标失败：".data
      ++ jsTrim ("HTTP/1.1 407 Proxy Authentication Required\r\n\r\n".data))
    rfl).2

/-! ## Claim C8: readAndClear returns the resolved buffer and empties it -/

/-- Every resolution of the data loop returns the whole buffer contents at
that moment: the initial buffer followed by the notifications consumed so
far, a state satisfying the predicate. -/
theorem runReadLoop_resolves (cb : Option (List Nat → Bool)) :
    ∀ (events : List (List Nat)) (buf b : List Nat),
      runReadLoop cb buf events = some b →
      ∃ k, k ≤ events.length ∧ b = buf ++ (events.take k).flatten ∧
        readSatisfied cb b = true := by
  intro events
  induction events with
  | nil =>
    intro buf b h
    exact absurd h (by simp [runReadLoop])
  | cons d rest ih =>
    intro buf b h
    unfold runReadLoop at h
    by_cases hs : readSatisfied cb (buf ++ d) = true
    · simp only [hs, if_true] at h
      obtain rfl : buf ++ d = b := by injection h
      refine ⟨1, by simp, by simp, hs⟩
    · simp only [hs, if_false, Bool.false_eq_true] at h
      obtain ⟨k, hk, hb, hsat⟩ := ih (buf ++ d) b h
      refine ⟨k + 1, by simp; omega, ?_, hsat⟩
      simp [hb, List.take]

/-- Every resolution of readAsync returns the whole buffer contents at the
moment of resolution. -/
theorem runReadAsync_resolves (cb : Option (List Nat → Bool))
    (buf : List Nat) (events : List (List Nat)) (b : List Nat)
    (h : runReadAsync cb buf events = some b) :
    ∃ k, k ≤ events.length ∧ b = buf ++ (events.take k).flatten ∧
      readSatisfied cb b = true := by
  unfold runReadAsync at h
  by_cases h0 : (!buf.isEmpty && readSatisfied cb buf) = true
  · rw [if_pos h0] at h
    obtain rfl : buf = b := by injection h
    exact ⟨0, by simp, by simp, (Bool.and_eq_true ..).mp h0 |>.2⟩
  · rw [if_neg h0] at h
    exact runReadLoop_resolves cb events buf b h

/-- Claim C8: a successful readAndClear with no intervening notification
returns exactly the buffer contents at the moment the inner read resolved,
and immediately afterwards the buffer is empty — the residual beyond the
consumed prefix, which here is the whole buffer. -/
theorem readAndClear_full_consume (cb : Option (List Nat → Bool))
    (buf : List Nat) (events : List (List Nat)) (ret after : List Nat)
    (h : readAndClearModel cb buf events = some (ret, after)) :
    runReadAsync cb buf events = some ret ∧
    (∃ k, k ≤ events.length ∧ ret = buf ++ (events.take k).flatten ∧
      readSatisfied cb ret = true) ∧
    after = [] := by
  unfold readAndClearModel at h
  cases hr : runReadAsync cb buf events with
  | none =>
    rw [hr] at h
    exact absurd h (by simp)
  | some b =>
    rw [hr] at h
    have hpair : b = ret ∧ (spliceChunks 0 b.length b).2 = after := by
      have := Option.some.inj h
      exact ⟨congrArg Prod.fst this, congrArg Prod.snd this⟩
    obtain ⟨rfl, hafter⟩ := hpair
    refine ⟨rfl, runReadAsync_resolves cb buf events b hr, ?_⟩
    rw [← hafter]
    simp [spliceChunks, List.drop_length]

/-- Claim C8, witness: reading with no callback from the one-byte buffer 7
returns that byte and leaves the buffer empty. -/
theorem readAndClear_full_consume_witness :
    runReadAsync none [7] [] = some [7] ∧
    (∃ k, k ≤ ([] : List (List Nat)).length ∧
      [7] = [7] ++ (([] : List (List Nat)).take k).flatten ∧
      readSatisfied none [7] = true) ∧
    ([] : List Nat) = [] :=
  readAndClear_full_consume none [7] [] [7] [] rfl

/-! ## Claim C4: helper lemmas for the target-request round trip -/

/-- splitOn never returns an empty list of pieces. -/
theorem splitOn_ne_nil (sep : Char) (l : List Char) : splitOn sep l ≠ [] := by
  cases l with
  | nil => simp [splitOn]
  | cons c rest =>
    unfold splitOn
    by_cases h : c = sep
    · simp [h]
    · rw [if_neg h]
      cases splitOn sep rest <;> simp

/-- Prepending separator-free text extends the first piece of a split. -/
theorem splitOn_append (sep : Char) (part l : List Char)
    (h : ∀ c ∈ part, c ≠ sep) (p : List Char) (ps : List (List Char))
    (hl : splitOn sep l = p :: ps) :
    splitOn sep (part ++ l) = (part ++ p) :: ps := by
  induction part with
  | nil => simpa using hl
  | cons c cs ih =>
    have hc : c ≠ sep := h c (by simp)
    have ih2 := ih (fun d hd => h d (by simp [hd]))
    simp only [List.cons_append]
    unfold splitOn
    rw [if_neg hc, ih2]

/-- A separator-free list splits into itself as the only piece. -/
theorem splitOn_single (sep : Char) (l : List Char) (h : ∀ c ∈ l, c ≠ sep) :
    splitOn sep l = [l] := by
  have h0 : splitOn sep ([] : List Char) = [] :: [] := rfl
  have h2 := splitOn_append sep l [] h [] [] h0
  simpa using h2

/-- splitOn is a left inverse of joinWith on nonempty, separator-free
pieces. -/
theorem splitOn_joinWith (sep : Char) :
    ∀ ps : List (List Char), ps ≠ [] →
      (∀ part ∈ ps, ∀ c ∈ part, c ≠ sep) →
      splitOn sep (joinWith sep ps) = ps := by
  intro ps
  induction ps with
  | nil => intro h; exact absurd rfl h
  | cons p ps ih =>
    intro _ hsep
    cases ps with
    | nil =>
      exact splitOn_single sep p (hsep p (by simp))
    | cons q qs =>
      have hrest : splitOn sep (joinWith sep (q :: qs)) = q :: qs :=
        ih (by simp) (fun part hp => hsep part (by simp [hp]))
      have hjoin : joinWith sep (p :: q :: qs) = p ++ sep :: joinWith sep (q :: qs) := rfl
      have hsepsplit : splitOn sep (sep :: joinWith sep (q :: qs))
          = [] :: (q :: qs) := by
        unfold splitOn
        rw [if_pos rfl, hrest]
      have := splitOn_append sep p (sep :: joinWith sep (q :: qs))
        (hsep p (by simp)) [] (q :: qs) hsepsplit
      rw [hjoin, this]
      simp

/-- Every character of a join is the separator or lies in one of the
pieces. -/
theorem mem_joinWith (sep : Char) :
    ∀ (ps : List (List Char)) (c : Char), c ∈ joinWith sep ps →
      c = sep ∨ ∃ part ∈ ps, c ∈ part := by
  intro ps
  induction ps with
  | nil => intro c h; simp [joinWith] at h
  | cons p ps ih =>
    intro c h
    cases ps with
    | nil =>
      exact Or.inr ⟨p, by simp, by simpa [joinWith] using h⟩
    | cons q qs =>
      have hj : joinWith sep (p :: q :: qs) = p ++ sep :: joinWith sep (q :: qs) := rfl
      rw [hj] at h
      rcases List.mem_append.mp h with h1 | h1
      · exact Or.inr ⟨p, by simp, h1⟩
      · rcases List.mem_cons.mp h1 with h2 | h2
        · exact Or.inl h2
        · rcases ih c h2 with h3 | ⟨part, hp, hc⟩
          · exact Or.inl h3
          · exact Or.inr ⟨part, by simp [hp], hc⟩

/-- Decimal rendering and reading are mutually inverse on byte values. -/
theorem decVal_decRepr : ∀ o, o < 256 → decVal (decRepr o) = o := by decide

/-- The decimal rendering of a byte value is a canonical octet. -/
theorem canonOctet_decRepr : ∀ o, o < 256 → isCanonOctet (decRepr o) = true := by decide

/-- The decimal rendering of a byte value consists of decimal digits. -/
theorem decRepr_all_digits : ∀ o, o < 256 → (decRepr o).all isDecDigit = true := by decide

/-- A decimal digit is not a dot. -/
theorem isDecDigit_ne_dot (c : Char) (h : isDecDigit c = true) : c ≠ '.' := by
  intro heq
  subst heq
  simp [isDecDigit] at h

/-- Hex digit values and characters are mutually inverse below 16. -/
theorem hexVal_hexDig : ∀ k, k < 16 → hexVal (hexDig k) = k := by decide

/-- The hex digit characters are hex digits. -/
theorem isHexDigit_hexDig : ∀ k, k < 16 → isHexDigit (hexDig k) = true := by decide

/-- A hex digit is not a colon. -/
theorem isHexDigit_ne_colon (c : Char) (h : isHexDigit c = true) : c ≠ ':' := by
  intro heq
  subst heq
  simp [isHexDigit] at h

/-- A hex digit is not a dot. -/
theorem isHexDigit_ne_dot (c : Char) (h : isHexDigit c = true) : c ≠ '.' := by
  intro heq
  subst heq
  simp [isHexDigit] at h

/-- With fuel available, a value below 16 is one hex digit. -/
theorem minHexAux_lt16 (fuel n : Nat) (hf : 1 ≤ fuel) (hn : n < 16) :
    minHexAux fuel n = [hexDig n] := by
  cases fuel with
  | zero => omega
  | succ f => simp [minHexAux, hn]

/-- With fuel available, a value of 16 or more splits off its last digit. -/
theorem minHexAux_ge16 (fuel n : Nat) (hf : 1 ≤ fuel) (hn : 16 ≤ n) :
    minHexAux fuel n = minHexAux (fuel - 1) (n / 16) ++ [hexDig (n % 16)] := by
  cases fuel with
  | zero => omega
  | succ f =>
    have : ¬ n < 16 := by omega
    simp [minHexAux, this]

/-- The padded hex rendering of a port below 65536 reads back as its two
big-endian bytes. -/
theorem portBytes_eq (p : Nat) (hp : p < 65536) :
    portBytes p = [p / 256, p % 256] := by
  unfold portBytes minHex
  by_cases h1 : p < 16
  · rw [minHexAux_lt16 (p + 1) p (by omega) h1]
    show hexPairsToBytes ['0', '0', '0', hexDig p] = _
    show [16 * hexVal '0' + hexVal '0', 16 * hexVal '0' + hexVal (hexDig p)] = _
    rw [hexVal_hexDig p (by omega)]
    have e1 : hexVal '0' = 0 := by decide
    rw [e1]
    have e2 : p / 256 = 0 := by omega
    have e3 : p % 256 = p := by omega
    rw [e2, e3]
    simp
  · by_cases h2 : p < 256
    · rw [minHexAux_ge16 (p + 1) p (by omega) (by omega)]
      have hq : p / 16 < 16 := by omega
      rw [minHexAux_lt16 (p + 1 - 1) (p / 16) (by omega) hq]
      show hexPairsToBytes ['0', '0', hexDig (p / 16), hexDig (p % 16)] = _
      show [16 * hexVal '0' + hexVal '0',
        16 * hexVal (hexDig (p / 16)) + hexVal (hexDig (p % 16))] = _
      rw [hexVal_hexDig (p / 16) (by omega), hexVal_hexDig (p % 16) (by omega)]
      have e1 : hexVal '0' = 0 := by decide
      rw [e1]
      have e2 : p / 256 = 0 := by omega
      have e3 : 16 * (p / 16) + p % 16 = p % 256 := by omega
      rw [e2, e3]
    · by_cases h3 : p < 4096
      · rw [minHexAux_ge16 (p + 1) p (by omega) (by omega)]
        rw [minHexAux_ge16 (p + 1 - 1) (p / 16) (by omega) (by omega)]
        have hq : p / 16 / 16 < 16 := by omega
        rw [minHexAux_lt16 (p + 1 - 1 - 1) (p / 16 / 16) (by omega) hq]
        show hexPairsToBytes ['0', hexDig (p / 16 / 16), hexDig (p / 16 % 16),
          hexDig (p % 16)] = _
        show [16 * hexVal '0' + hexVal (hexDig (p / 16 / 16)),
          16 * hexVal (hexDig (p / 16 % 16)) + hexVal (hexDig (p % 16))] = _
        rw [hexVal_hexDig (p / 16 / 16) hq, hexVal_hexDig (p / 16 % 16) (by omega),
          hexVal_hexDig (p % 16) (by omega)]
        have e1 : hexVal '0' = 0 := by decide
        rw [e1]
        have e2 : 16 * 0 + p / 16 / 16 = p / 256 := by omega
        have e3 : 16 * (p / 16 % 16) + p % 16 = p % 256 := by omega
        rw [e2, e3]
      · rw [minHexAux_ge16 (p + 1) p (by omega) (by omega)]
        rw [minHexAux_ge16 (p + 1 - 1) (p / 16) (by omega) (by omega)]
        rw [minHexAux_ge16 (p + 1 - 1 - 1) (p / 16 / 16) (by omega) (by omega)]
        have hq : p / 16 / 16 / 16 < 16 := by omega
        rw [minHexAux_lt16 (p + 1 - 1 - 1 - 1) (p / 16 / 16 / 16) (by omega) hq]
        show hexPairsToBytes (padLeftZeros 4 [hexDig (p / 16 / 16 / 16),
          hexDig (p / 16 / 16 % 16), hexDig (p / 16 % 16), hexDig (p % 16)]) = _
        show hexPairsToBytes [hexDig (p / 16 / 16 / 16), hexDig (p / 16 / 16 % 16),
          hexDig (p / 16 % 16), hexDig (p % 16)] = _
        show [16 * hexVal (hexDig (p / 16 / 16 / 16)) + hexVal (hexDig (p / 16 / 16 % 16)),
          16 * hexVal (hexDig (p / 16 % 16)) + hexVal (hexDig (p % 16))] = _
        rw [hexVal_hexDig (p / 16 / 16 / 16) hq, hexVal_hexDig (p / 16 / 16 % 16) (by omega),
          hexVal_hexDig (p / 16 % 16) (by omega), hexVal_hexDig (p % 16) (by omega)]
        have e2 : 16 * (p / 16 / 16 / 16) + p / 16 / 16 % 16 = p / 256 := by omega
        have e3 : 16 * (p / 16 % 16) + p % 16 = p % 256 := by omega
        rw [e2, e3]

/-- Every code point is below the Unicode bound. -/
theorem char_toNat_lt (c : Char) : c.toNat < 1114112 := by
  have h := c.valid
  unfold UInt32.isValidChar at h
  unfold Nat.isValidChar at h
  have e : c.toNat = c.val.toNat := rfl
  rcases h with h | ⟨h1, h2⟩ <;> omega

/-- Each encoded character is at least one byte. -/
theorem utf8EncodeChar_ne_nil (c : Char) : utf8EncodeChar c ≠ [] := by
  unfold utf8EncodeChar
  by_cases h1 : c.toNat < 128
  · simp [h1]
  · by_cases h2 : c.toNat < 2048
    · simp [h1, h2]
    · by_cases h3 : c.toNat < 65536 <;> simp [h1, h2, h3]

/-- Decoding one step after encoding one character recovers that character
and the remaining bytes. -/
theorem utf8DecodeStep_encodeChar (c : Char) (bs : List Nat) :
    utf8DecodeStep (utf8EncodeChar c ++ bs) = some (c, bs) := by
  have hlt := char_toNat_lt c
  by_cases h1 : c.toNat < 128
  · have he : utf8EncodeChar c = [c.toNat] := by simp [utf8EncodeChar, h1]
    rw [he]
    show utf8DecodeStep (c.toNat :: bs) = _
    simp [utf8DecodeStep, h1, Char.ofNat_toNat]
  · by_cases h2 : c.toNat < 2048
    · have he : utf8EncodeChar c = [192 + c.toNat / 64, 128 + c.toNat % 64] := by
        simp [utf8EncodeChar, h1, h2]
      rw [he]
      show utf8DecodeStep ((192 + c.toNat / 64) :: (128 + c.toNat % 64) :: bs) = _
      have c1 : ¬ (192 + c.toNat / 64 < 128) := by omega
      have c2 : ¬ (192 + c.toNat / 64 < 192) := by omega
      have c3 : 192 + c.toNat / 64 < 224 := by omega
      have c4 : utf8Cont (128 + c.toNat % 64) = true := by
        simp only [utf8Cont, Bool.and_eq_true, decide_eq_true_eq]
        omega
      have e : (192 + c.toNat / 64 - 192) * 64 + (128 + c.toNat % 64 - 128)
          = c.toNat := by omega
      simp [utf8DecodeStep, c1, c2, c3, c4]
      rw [show c.toNat / 64 * 64 + c.toNat % 64 = c.toNat from by omega,
        Char.ofNat_toNat]
    · by_cases h3 : c.toNat < 65536
      · have he : utf8EncodeChar c
            = [224 + c.toNat / 4096, 128 + (c.toNat / 64) % 64, 128 + c.toNat % 64] := by
          simp [utf8EncodeChar, h1, h2, h3]
        rw [he]
        show utf8DecodeStep ((224 + c.toNat / 4096) :: (128 + (c.toNat / 64) % 64)
          :: (128 + c.toNat % 64) :: bs) = _
        have c1 : ¬ (224 + c.toNat / 4096 < 128) := by omega
        have c2 : ¬ (224 + c.toNat / 4096 < 192) := by omega
        have c3 : ¬ (224 + c.toNat / 4096 < 224) := by omega
        have c4 : 224 + c.toNat / 4096 < 240 := by omega
        have c5 : utf8Cont (128 + (c.toNat / 64) % 64) = true := by
          simp only [utf8Cont, Bool.and_eq_true, decide_eq_true_eq]
          omega
        have c6 : utf8Cont (128 + c.toNat % 64) = true := by
          simp only [utf8Cont, Bool.and_eq_true, decide_eq_true_eq]
          omega
        have e : (224 + c.toNat / 4096 - 224) * 4096
            + (128 + (c.toNat / 64) % 64 - 128) * 64 + (128 + c.toNat % 64 - 128)
            = c.toNat := by omega
        simp [utf8DecodeStep, c1, c2, c3, c4, c5, c6]
        rw [show c.toNat / 4096 * 4096 + c.toNat / 64 % 64 * 64 + c.toNat % 64
            = c.toNat from by omega,
          Char.ofNat_toNat]
      · have he : utf8EncodeChar c
            = [240 + c.toNat / 262144, 128 + (c.toNat / 4096) % 64,
               128 + (c.toNat / 64) % 64, 128 + c.toNat % 64] := by
          simp [utf8EncodeChar, h1, h2, h3]
        rw [he]
        show utf8DecodeStep ((240 + c.toNat / 262144) :: (128 + (c.toNat / 4096) % 64)
          :: (128 + (c.toNat / 64) % 64) :: (128 + c.toNat % 64) :: bs) = _
        have c1 : ¬ (240 + c.toNat / 262144 < 128) := by omega
        have c2 : ¬ (240 + c.toNat / 262144 < 192) := by omega
        have c3 : ¬ (240 + c.toNat / 262144 < 224) := by omega
        have c4 : ¬ (240 + c.toNat / 262144 < 240) := by omega
        have c5 : 240 + c.toNat / 262144 < 248 := by omega
        have c6 : utf8Cont (128 + (c.toNat / 4096) % 64) = true := by
          simp only [utf8Cont, Bool.and_eq_true, decide_eq_true_eq]
          omega
        have c7 : utf8Cont (128 + (c.toNat / 64) % 64) = true := by
          simp only [utf8Cont, Bool.and_eq_true, decide_eq_true_eq]
          omega
        have c8 : utf8Cont (128 + c.toNat % 64) = true := by
          simp only [utf8Cont, Bool.and_eq_true, decide_eq_true_eq]
          omega
        have e : (240 + c.toNat / 262144 - 240) * 262144
            + (128 + (c.toNat / 4096) % 64 - 128) * 4096
            + (128 + (c.toNat / 64) % 64 - 128) * 64
            + (128 + c.toNat % 64 - 128) = c.toNat := by omega
        simp [utf8DecodeStep, c1, c2, c3, c4, c5, c6, c7, c8]
        rw [show c.toNat / 262144 * 262144 + c.toNat / 4096 % 64 * 4096
              + c.toNat / 64 % 64 * 64 + c.toNat % 64 = c.toNat from by omega,
          Char.ofNat_toNat]

/-- With enough fuel, iterated decoding inverts encoding. -/
theorem utf8DecodeAux_encode :
    ∀ (l : List Char) (fuel : Nat), (utf8Bytes l).length ≤ fuel →
      utf8DecodeAux fuel (utf8Bytes l) = some l := by
  intro l
  induction l with
  | nil =>
    intro fuel _
    cases fuel <;> rfl
  | cons c cs ih =>
    intro fuel hf
    have he : utf8Bytes (c :: cs) = utf8EncodeChar c ++ utf8Bytes cs := by
      simp [utf8Bytes]
    obtain ⟨eb, ebs, hcons⟩ : ∃ h t, utf8EncodeChar c = h :: t := by
      cases henc : utf8EncodeChar c with
      | nil => exact absurd henc (utf8EncodeChar_ne_nil c)
      | cons h t => exact ⟨h, t, rfl⟩
    have hlen : (utf8EncodeChar c).length + (utf8Bytes cs).length ≤ fuel := by
      rw [he] at hf
      simpa [List.length_append] using hf
    have hlen1 : 1 ≤ (utf8EncodeChar c).length := by
      rw [hcons]
      simp
    obtain ⟨f, rfl⟩ : ∃ f, fuel = f + 1 := ⟨fuel - 1, by omega⟩
    have hstep : utf8DecodeStep (eb :: (ebs ++ utf8Bytes cs)) = some (c, utf8Bytes cs) := by
      rw [← List.cons_append, ← hcons]
      exact utf8DecodeStep_encodeChar c (utf8Bytes cs)
    have hrest : (utf8Bytes cs).length ≤ f := by omega
    rw [he, hcons, List.cons_append]
    simp only [utf8DecodeAux]
    rw [hstep]
    show (utf8DecodeAux f (utf8Bytes cs)).map (fun cs => c :: cs) = some (c :: cs)
    rw [ih f hrest]
    rfl

/-- UTF-8 decoding is a left inverse of UTF-8 encoding. -/
theorem utf8Decode_utf8Bytes (l : List Char) : utf8Decode (utf8Bytes l) = some l :=
  utf8DecodeAux_encode l (utf8Bytes l).length (Nat.le_refl _)

/-- The canonical dotted quad splits back into its four octet renderings. -/
theorem splitOn_ipv4Host (o1 o2 o3 o4 : Nat) (h1 : o1 < 256) (h2 : o2 < 256)
    (h3 : o3 < 256) (h4 : o4 < 256) :
    splitOn '.' (ipv4Host o1 o2 o3 o4) = [decRepr o1, decRepr o2, decRepr o3, decRepr o4] := by
  apply splitOn_joinWith
  · simp
  · intro part hp c hc
    simp only [List.mem_cons, List.not_mem_nil, or_false] at hp
    have hdig : isDecDigit c = true := by
      rcases hp with rfl | rfl | rfl | rfl
      · exact List.all_eq_true.mp (decRepr_all_digits o1 h1) c hc
      · exact List.all_eq_true.mp (decRepr_all_digits o2 h2) c hc
      · exact List.all_eq_true.mp (decRepr_all_digits o3 h3) c hc
      · exact List.all_eq_true.mp (decRepr_all_digits o4 h4) c hc
    exact isDecDigit_ne_dot c hdig

/-- net.isIP classifies the canonical dotted quad as IPv4. -/
theorem classifyHost_ipv4Host (o1 o2 o3 o4 : Nat) (h1 : o1 < 256) (h2 : o2 < 256)
    (h3 : o3 < 256) (h4 : o4 < 256) :
    classifyHost (ipv4Host o1 o2 o3 o4) = 4 := by
  have hv4 : isIPv4Chars (ipv4Host o1 o2 o3 o4) = true := by
    unfold isIPv4Chars
    rw [splitOn_ipv4Host o1 o2 o3 o4 h1 h2 h3 h4]
    simp [canonOctet_decRepr o1 h1, canonOctet_decRepr o2 h2,
      canonOctet_decRepr o3 h3, canonOctet_decRepr o4 h4]
  simp [classifyHost, hv4]

/-- Every character of a padded hex group is a hex digit. -/
theorem hex4_all_hex (g : Nat) (hg : g < 65536) :
    ∀ c ∈ hex4 g, isHexDigit c = true := by
  intro c hc
  simp only [hex4, List.mem_cons, List.not_mem_nil, or_false] at hc
  rcases hc with rfl | rfl | rfl | rfl
  · exact isHexDigit_hexDig _ (by omega)
  · exact isHexDigit_hexDig _ (by omega)
  · exact isHexDigit_hexDig _ (by omega)
  · exact isHexDigit_hexDig _ (by omega)

/-- The canonical 8-group host splits back into its eight groups. -/
theorem splitOn_ipv6Host (g1 g2 g3 g4 g5 g6 g7 g8 : Nat)
    (b1 : g1 < 65536) (b2 : g2 < 65536) (b3 : g3 < 65536) (b4 : g4 < 65536)
    (b5 : g5 < 65536) (b6 : g6 < 65536) (b7 : g7 < 65536) (b8 : g8 < 65536) :
    splitOn ':' (ipv6Host g1 g2 g3 g4 g5 g6 g7 g8)
      = [hex4 g1, hex4 g2, hex4 g3, hex4 g4, hex4 g5, hex4 g6, hex4 g7, hex4 g8] := by
  apply splitOn_joinWith
  · simp
  · intro part hp c hc
    simp only [List.mem_cons, List.not_mem_nil, or_false] at hp
    have hdig : isHexDigit c = true := by
      rcases hp with rfl | rfl | rfl | rfl | rfl | rfl | rfl | rfl
      · exact hex4_all_hex g1 b1 c hc
      · exact hex4_all_hex g2 b2 c hc
      · exact hex4_all_hex g3 b3 c hc
      · exact hex4_all_hex g4 b4 c hc
      · exact hex4_all_hex g5 b5 c hc
      · exact hex4_all_hex g6 b6 c hc
      · exact hex4_all_hex g7 b7 c hc
      · exact hex4_all_hex g8 b8 c hc
    exact isHexDigit_ne_colon c hdig

/-- One padded group passes the per-group test of the full-form check. -/
theorem hex4_group_ok (g : Nat) (hg : g < 65536) :
    (!(hex4 g).isEmpty && (hex4 g).length ≤ 4 && (hex4 g).all isHexDigit) = true := by
  have a1 := isHexDigit_hexDig (g / 4096) (by omega)
  have a2 := isHexDigit_hexDig (g / 256 % 16) (by omega)
  have a3 := isHexDigit_hexDig (g / 16 % 16) (by omega)
  have a4 := isHexDigit_hexDig (g % 16) (by omega)
  simp [hex4, a1, a2, a3, a4]

/-- net.isIP classifies the canonical 8-group host as IPv6. -/
theorem classifyHost_ipv6Host (g1 g2 g3 g4 g5 g6 g7 g8 : Nat)
    (b1 : g1 < 65536) (b2 : g2 < 65536) (b3 : g3 < 65536) (b4 : g4 < 65536)
    (b5 : g5 < 65536) (b6 : g6 < 65536) (b7 : g7 < 65536) (b8 : g8 < 65536) :
    classifyHost (ipv6Host g1 g2 g3 g4 g5 g6 g7 g8) = 6 := by
  have hnodot : ∀ c ∈ ipv6Host g1 g2 g3 g4 g5 g6 g7 g8, c ≠ '.' := by
    intro c hc
    rcases mem_joinWith ':' _ c hc with rfl | ⟨part, hp, hcp⟩
    · decide
    · simp only [List.mem_cons, List.not_mem_nil, or_false] at hp
      have hdig : isHexDigit c = true := by
        rcases hp with rfl | rfl | rfl | rfl | rfl | rfl | rfl | rfl
        · exact hex4_all_hex g1 b1 c hcp
        · exact hex4_all_hex g2 b2 c hcp
        · exact hex4_all_hex g3 b3 c hcp
        · exact hex4_all_hex g4 b4 c hcp
        · exact hex4_all_hex g5 b5 c hcp
        · exact hex4_all_hex g6 b6 c hcp
        · exact hex4_all_hex g7 b7 c hcp
        · exact hex4_all_hex g8 b8 c hcp
      exact isHexDigit_ne_dot c hdig
  have h4 : isIPv4Chars (ipv6Host g1 g2 g3 g4 g5 g6 g7 g8) = false := by
    unfold isIPv4Chars
    rw [splitOn_single '.' _ hnodot]
    simp
  have h6 : isIPv6FullChars (ipv6Host g1 g2 g3 g4 g5 g6 g7 g8) = true := by
    unfold isIPv6FullChars
    rw [splitOn_ipv6Host g1 g2 g3 g4 g5 g6 g7 g8 b1 b2 b3 b4 b5 b6 b7 b8]
    simp only [List.all_cons, List.all_nil, Bool.and_true]
    rw [hex4_group_ok g1 b1, hex4_group_ok g2 b2, hex4_group_ok g3 b3,
      hex4_group_ok g4 b4, hex4_group_ok g5 b5, hex4_group_ok g6 b6,
      hex4_group_ok g7 b7, hex4_group_ok g8 b8]
    rfl
  simp [classifyHost, h4, h6]

/-- Encoding one canonical group yields its two big-endian bytes. -/
theorem ipv6GroupBytes_hex4 (g : Nat) (hg : g < 65536) :
    ipv6GroupBytes (hex4 g) = [g / 256, g % 256] := by
  unfold ipv6GroupBytes
  have hlen : padLeftZeros 4 (hex4 g) = hex4 g := by
    simp [padLeftZeros, hex4]
  rw [hlen]
  show [16 * hexVal (hexDig (g / 4096)) + hexVal (hexDig (g / 256 % 16)),
    16 * hexVal (hexDig (g / 16 % 16)) + hexVal (hexDig (g % 16))] = _
  rw [hexVal_hexDig (g / 4096) (by omega), hexVal_hexDig (g / 256 % 16) (by omega),
    hexVal_hexDig (g / 16 % 16) (by omega), hexVal_hexDig (g % 16) (by omega)]
  rw [show 16 * (g / 4096) + g / 256 % 16 = g / 256 from by omega,
    show 16 * (g / 16 % 16) + g % 16 = g % 256 from by omega]

/-- Rendering the two big-endian bytes of a group recovers the padded
form. -/
theorem bytesToHexQuad_eq_hex4 (g : Nat) (hg : g < 65536) :
    bytesToHexQuad (g / 256) (g % 256) = hex4 g := by
  unfold bytesToHexQuad hex4
  rw [show g / 256 / 16 = g / 4096 from by omega,
    show g % 256 / 16 = g / 16 % 16 from by omega,
    show g % 256 % 16 = g % 16 from by omega]

/-- The fixed request prefix 05 01 00. -/
theorem hexPrefix_bytes : hexPairsToBytes ['0', '5', '0', '1', '0', '0'] = [5, 1, 0] := by
  decide

/-- IPv4 case of the round trip: encoding a canonical dotted quad and
parsing back recovers it. -/
theorem targetRoundtripIPv4 (o1 o2 o3 o4 p : Nat) (h1 : o1 < 256) (h2 : o2 < 256)
    (h3 : o3 < 256) (h4 : o4 < 256) (hp : p < 65536) :
    socks5TargetMessage (ipv4Host o1 o2 o3 o4) p
      = some [5, 1, 0, 1, o1, o2, o3, o4, p / 256, p % 256] ∧
    socks5ParseTarget [5, 1, 0, 1, o1, o2, o3, o4, p / 256, p % 256]
      = some (ipv4Host o1 o2 o3 o4, p) := by
  constructor
  · simp only [socks5TargetMessage, classifyHost_ipv4Host o1 o2 o3 o4 h1 h2 h3 h4,
      splitOn_ipv4Host o1 o2 o3 o4 h1 h2 h3 h4, portBytes_eq p hp, hexPrefix_bytes,
      List.map_cons, List.map_nil, decVal_decRepr o1 h1, decVal_decRepr o2 h2,
      decVal_decRepr o3 h3, decVal_decRepr o4 h4, Nat.mod_eq_of_lt h1,
      Nat.mod_eq_of_lt h2, Nat.mod_eq_of_lt h3, Nat.mod_eq_of_lt h4]
    simp [hexPrefix_bytes]
  · have hred : socks5ParseTarget [5, 1, 0, 1, o1, o2, o3, o4, p / 256, p % 256]
        = some (joinWith '.' [decRepr o1, decRepr o2, decRepr o3, decRepr o4],
            256 * (p / 256) + p % 256) := rfl
    rw [hred, show 256 * (p / 256) + p % 256 = p from by omega]
    rfl

/-- Domain case of the round trip: a host classified as a domain, free of
colons, with a UTF-8 length fitting one byte, is recovered exactly. -/
theorem targetRoundtripDomain (host : List Char) (p : Nat)
    (hclass : classifyHost host = 0) (hlen : (utf8Bytes host).length ≤ 255)
    (hp : p < 65536) :
    socks5TargetMessage host p
      = some (5 :: 1 :: 0 :: 3 :: (utf8Bytes host).length
          :: (utf8Bytes host ++ [p / 256, p % 256])) ∧
    socks5ParseTarget (5 :: 1 :: 0 :: 3 :: (utf8Bytes host).length
          :: (utf8Bytes host ++ [p / 256, p % 256]))
      = some (host, p) := by
  constructor
  · simp only [socks5TargetMessage, hclass, portBytes_eq p hp, hexPrefix_bytes,
      Nat.mod_eq_of_lt (show (utf8Bytes host).length < 256 from by omega)]
    simp [hexPrefix_bytes]
  · have hred : socks5ParseTarget (5 :: 1 :: 0 :: 3 :: (utf8Bytes host).length
          :: (utf8Bytes host ++ [p / 256, p % 256]))
        = (let dom := (utf8Bytes host ++ [p / 256, p % 256]).take (utf8Bytes host).length
           match (utf8Bytes host ++ [p / 256, p % 256]).drop (utf8Bytes host).length with
           | p1 :: p2 :: [] =>
             if dom.length = (utf8Bytes host).length then
               match utf8Decode dom with
               | some chars => some (chars, 256 * p1 + p2)
               | none => none
             else none
           | _ => none) := rfl
    have ht : (utf8Bytes host ++ [p / 256, p % 256]).take (utf8Bytes host).length
        = utf8Bytes host := List.take_left ..
    have hd : (utf8Bytes host ++ [p / 256, p % 256]).drop (utf8Bytes host).length
        = [p / 256, p % 256] := List.drop_left ..
    rw [hred]
    simp only [ht, hd, eq_self_iff_true, if_true]
    rw [utf8Decode_utf8Bytes host]
    show some (host, 256 * (p / 256) + p % 256) = some (host, p)
    rw [show 256 * (p / 256) + p % 256 = p from by omega]

/-- IPv6 case of the round trip: encoding the fully padded lowercase
8-group host and parsing back recovers it. -/
theorem targetRoundtripIPv6 (g1 g2 g3 g4 g5 g6 g7 g8 p : Nat)
    (b1 : g1 < 65536) (b2 : g2 < 65536) (b3 : g3 < 65536) (b4 : g4 < 65536)
    (b5 : g5 < 65536) (b6 : g6 < 65536) (b7 : g7 < 65536) (b8 : g8 < 65536)
    (hp : p < 65536) :
    socks5TargetMessage (ipv6Host g1 g2 g3 g4 g5 g6 g7 g8) p
      = some [5, 1, 0, 4, g1 / 256, g1 % 256, g2 / 256, g2 % 256, g3 / 256, g3 % 256,
          g4 / 256, g4 % 256, g5 / 256, g5 % 256, g6 / 256, g6 % 256, g7 / 256, g7 % 256,
          g8 / 256, g8 % 256, p / 256, p % 256] ∧
    socks5ParseTarget [5, 1, 0, 4, g1 / 256, g1 % 256, g2 / 256, g2 % 256, g3 / 256,
          g3 % 256, g4 / 256, g4 % 256, g5 / 256, g5 % 256, g6 / 256, g6 % 256,
          g7 / 256, g7 % 256, g8 / 256, g8 % 256, p / 256, p % 256]
      = some (ipv6Host g1 g2 g3 g4 g5 g6 g7 g8, p) := by
  constructor
  · simp only [socks5TargetMessage,
      classifyHost_ipv6Host g1 g2 g3 g4 g5 g6 g7 g8 b1 b2 b3 b4 b5 b6 b7 b8,
      splitOn_ipv6Host g1 g2 g3 g4 g5 g6 g7 g8 b1 b2 b3 b4 b5 b6 b7 b8,
      portBytes_eq p hp, hexPrefix_bytes, List.map_cons, List.map_nil,
      ipv6GroupBytes_hex4 g1 b1, ipv6GroupBytes_hex4 g2 b2, ipv6GroupBytes_hex4 g3 b3,
      ipv6GroupBytes_hex4 g4 b4, ipv6GroupBytes_hex4 g5 b5, ipv6GroupBytes_hex4 g6 b6,
      ipv6GroupBytes_hex4 g7 b7, ipv6GroupBytes_hex4 g8 b8]
    simp [hexPrefix_bytes]
  · have hred : socks5ParseTarget [5, 1, 0, 4, g1 / 256, g1 % 256, g2 / 256, g2 % 256,
          g3 / 256, g3 % 256, g4 / 256, g4 % 256, g5 / 256, g5 % 256, g6 / 256,
          g6 % 256, g7 / 256, g7 % 256, g8 / 256, g8 % 256, p / 256, p % 256]
        = some (joinWith ':' (parseGroups [g1 / 256, g1 % 256, g2 / 256, g2 % 256,
            g3 / 256, g3 % 256, g4 / 256, g4 % 256, g5 / 256, g5 % 256, g6 / 256,
            g6 % 256, g7 / 256, g7 % 256, g8 / 256, g8 % 256]),
            256 * (p / 256) + p % 256) := rfl
    have hpg : parseGroups [g1 / 256, g1 % 256, g2 / 256, g2 % 256, g3 / 256, g3 % 256,
          g4 / 256, g4 % 256, g5 / 256, g5 % 256, g6 / 256, g6 % 256, g7 / 256,
          g7 % 256, g8 / 256, g8 % 256]
        = [bytesToHexQuad (g1 / 256) (g1 % 256), bytesToHexQuad (g2 / 256) (g2 % 256),
           bytesToHexQuad (g3 / 256) (g3 % 256), bytesToHexQuad (g4 / 256) (g4 % 256),
           bytesToHexQuad (g5 / 256) (g5 % 256), bytesToHexQuad (g6 / 256) (g6 % 256),
           bytesToHexQuad (g7 / 256) (g7 % 256), bytesToHexQuad (g8 / 256) (g8 % 256)] := rfl
    rw [hred, hpg, bytesToHexQuad_eq_hex4 g1 b1, bytesToHexQuad_eq_hex4 g2 b2,
      bytesToHexQuad_eq_hex4 g3 b3, bytesToHexQuad_eq_hex4 g4 b4,
      bytesToHexQuad_eq_hex4 g5 b5, bytesToHexQuad_eq_hex4 g6 b6,
      bytesToHexQuad_eq_hex4 g7 b7, bytesToHexQuad_eq_hex4 g8 b8,
      show 256 * (p / 256) + p % 256 = p from by omega]
    rfl

/-- Claim C4, counterexample to the claim as stated: two distinct full
8-group IPv6 hosts, differing only in group zero-padding, are both
classified as IPv6 and encode to the same target request, so the encoding is
not injective on the IPv6 address class and no reverse parse can recover
both originals. -/
theorem socks5_target_not_injective_cex :
    socks5TargetMessage ("0:0:0:0:0:0:0:1".data) 80
      = socks5TargetMessage ("0000:0000:0000:0000:0000:0000:0000:0001".data) 80 ∧
    ("0:0:0:0:0:0:0:1".data) ≠ ("0000:0000:0000:0000:0000:0000:0000:0001".data) ∧
    classifyHost ("0:0:0:0:0:0:0:1".data) = 6 ∧
    classifyHost ("0000:0000:0000:0000:0000:0000:0000:0001".data) = 6 := by
  decide

/-- Claim C4 as amended: the target encoding round-trips on canonical
forms.  A canonical dotted quad encodes as the fixed prefix, address type 1,
its four octets and the big-endian port, and the reverse parse recovers host
and port; a host classified as a domain (colon-free, UTF-8 length at most
255) encodes as address type 3 with a byte-length prefix and is recovered
exactly; an 8-group IPv6 host whose groups are each written as exactly four
lowercase hex digits encodes as address type 4 with two bytes per group and
is recovered exactly.  On 8-group forms in general the encoding identifies
hosts differing only in zero-padding or letter case, so only the padded
lowercase representative is recovered. -/
theorem socks5_target_roundtrip :
    (∀ o1 o2 o3 o4 p : Nat, o1 < 256 → o2 < 256 → o3 < 256 → o4 < 256 → p < 65536 →
      socks5TargetMessage (ipv4Host o1 o2 o3 o4) p
          = some [5, 1, 0, 1, o1, o2, o3, o4, p / 256, p % 256] ∧
      socks5ParseTarget [5, 1, 0, 1, o1, o2, o3, o4, p / 256, p % 256]
          = some (ipv4Host o1 o2 o3 o4, p)) ∧
    (∀ (host : List Char) (p : Nat), classifyHost host = 0 → ':' ∉ host →
        (utf8Bytes host).length ≤ 255 → p < 65536 →
      socks5TargetMessage host p
          = some (5 :: 1 :: 0 :: 3 :: (utf8Bytes host).length
              :: (utf8Bytes host ++ [p / 256, p % 256])) ∧
      socks5ParseTarget (5 :: 1 :: 0 :: 3 :: (utf8Bytes host).length
              :: (utf8Bytes host ++ [p / 256, p % 256]))
          = some (host, p)) ∧
    (∀ g1 g2 g3 g4 g5 g6 g7 g8 p : Nat, g1 < 65536 → g2 < 65536 → g3 < 65536 →
        g4 < 65536 → g5 < 65536 → g6 < 65536 → g7 < 65536 → g8 < 65536 → p < 65536 →
      socks5TargetMessage (ipv6Host g1 g2 g3 g4 g5 g6 g7 g8) p
          = some [5, 1, 0, 4, g1 / 256, g1 % 256, g2 / 256, g2 % 256, g3 / 256,
              g3 % 256, g4 / 256, g4 % 256, g5 / 256, g5 % 256, g6 / 256, g6 % 256,
              g7 / 256, g7 % 256, g8 / 256, g8 % 256, p / 256, p % 256] ∧
      socks5ParseTarget [5, 1, 0, 4, g1 / 256, g1 % 256, g2 / 256, g2 % 256, g3 / 256,
              g3 % 256, g4 / 256, g4 % 256, g5 / 256, g5 % 256, g6 / 256, g6 % 256,
              g7 / 256, g7 % 256, g8 / 256, g8 % 256, p / 256, p % 256]
          = some (ipv6Host g1 g2 g3 g4 g5 g6 g7 g8, p)) :=
  ⟨fun o1 o2 o3 o4 p h1 h2 h3 h4 hp =>
      targetRoundtripIPv4 o1 o2 o3 o4 p h1 h2 h3 h4 hp,
    fun host p hclass _ hlen hp =>
      targetRoundtripDomain host p hclass hlen hp,
    fun g1 g2 g3 g4 g5 g6 g7 g8 p b1 b2 b3 b4 b5 b6 b7 b8 hp =>
      targetRoundtripIPv6 g1 g2 g3 g4 g5 g6 g7 g8 p b1 b2 b3 b4 b5 b6 b7 b8 hp⟩

/-- Claim C4, witness: the round trip applied to 127.0.0.1 port 80, to the
domain example.com port 80, and to the padded host 0000:...:0001 port 443. -/
theorem socks5_target_roundtrip_witness :
    (socks5TargetMessage (ipv4Host 127 0 0 1) 80
        = some [5, 1, 0, 1, 127, 0, 0, 1, 80 / 256, 80 % 256] ∧
      socks5ParseTarget [5, 1, 0, 1, 127, 0, 0, 1, 80 / 256, 80 % 256]
        = some (ipv4Host 127 0 0 1, 80)) ∧
    (socks5TargetMessage ("example.com".data) 80
        = some (5 :: 1 :: 0 :: 3 :: (utf8Bytes ("example.com".data)).length
            :: (utf8Bytes ("example.com".data) ++ [80 / 256, 80 % 256])) ∧
      socks5ParseTarget (5 :: 1 :: 0 :: 3 :: (utf8Bytes ("example.com".data)).length
            :: (utf8Bytes ("example.com".data) ++ [80 / 256, 80 % 256]))
        = some ("example.com".data, 80)) ∧
    (socks5TargetMessage (ipv6Host 0 0 0 0 0 0 0 1) 443
        = some [5, 1, 0, 4, 0 / 256, 0 % 256, 0 / 256, 0 % 256, 0 / 256, 0 % 256,
            0 / 256, 0 % 256, 0 / 256, 0 % 256, 0 / 256, 0 % 256, 0 / 256, 0 % 256,
            1 / 256, 1 % 256, 443 / 256, 443 % 256] ∧
      socks5ParseTarget [5, 1, 0, 4, 0 / 256, 0 % 256, 0 / 256, 0 % 256, 0 / 256,
            0 % 256, 0 / 256, 0 % 256, 0 / 256, 0 % 256, 0 / 256, 0 % 256, 0 / 256,
            0 % 256, 1 / 256, 1 % 256, 443 / 256, 443 % 256]
        = some (ipv6Host 0 0 0 0 0 0 0 1, 443)) :=
  ⟨socks5_target_roundtrip.1 127 0 0 1 80 (by decide) (by decide) (by decide)
      (by decide) (by decide),
    socks5_target_roundtrip.2.1 ("example.com".data) 80 (by decide) (by decide)
      (by decide) (by decide),
    socks5_target_roundtrip.2.2 0 0 0 0 0 0 0 1 443 (by decide) (by decide) (by decide)
      (by decide) (by decide) (by decide) (by decide) (by decide) (by decide)⟩
